/-
  Verification of the paperPy notebooks: causal self-attention with and
  without registered buffers, the multi-head attention variants, batch
  normalization and layer normalization.

  A tensor holding one batch element is embedded as a function
  `Fin tokens → Fin features → ℝ`; every forward pass in the notebooks acts
  on each batch element independently, so properties are stated per batch
  element.  `torch.softmax` applied after `masked_fill_(mask, -torch.inf)`
  is embedded as `maskedSoftmaxRow`: a filled entry contributes
  `exp (-∞) = 0` to the numerator and to the denominator.  Where the code
  feeds the `-torch.inf`-filled score tensor into plain arithmetic (the
  `MHA` class multiplies it with the value tensor), the scores are embedded
  in `EReal`, the reals extended with `⊥ = -∞` and `⊤ = +∞`.
  `nn.Dropout` is a random map; a forward pass receives its realized action
  as an explicit function argument `drop` (the identity map in eval mode or
  at probability 0).
-/
import Mathlib

namespace PaperPy

/-- `torch.triu(torch.ones(ctx, ctx), diagonal=1)`: ones strictly above the
diagonal, zeros elsewhere. -/
def triuOnes (ctx : ℕ) : Fin ctx → Fin ctx → ℝ :=
  fun i j => if (i : ℕ) < (j : ℕ) then 1 else 0

open Classical in
/-- `Tensor.bool()` on a float entry: `true` iff the entry is nonzero. -/
noncomputable def tensorBool (r : ℝ) : Bool := decide (r ≠ 0)

/-- Row-wise `nn.Linear`: `y = x Wᵀ + b` with weight `W : Fin dout → Fin din → ℝ`
(zero bias when the layer is built with `bias=False`). -/
noncomputable def linearRow {n din dout : ℕ} (W : Fin dout → Fin din → ℝ)
    (b : Fin dout → ℝ) (x : Fin n → Fin din → ℝ) : Fin n → Fin dout → ℝ :=
  fun t o => (∑ i, W o i * x t i) + b o

/-- `torch.softmax(s, dim=-1)` on a score row whose entries were first
`masked_fill_`ed with `-torch.inf` where `m` holds: a filled entry has
`exp (-∞) = 0`, so it receives weight `0` and drops out of the denominator. -/
noncomputable def maskedSoftmaxRow {n : ℕ} (m : Fin n → Bool) (s : Fin n → ℝ) :
    Fin n → ℝ :=
  fun j => if m j then 0
    else Real.exp (s j) / ∑ k ∈ Finset.univ.filter (fun k => m k = false), Real.exp (s k)

/-- Flat feature index of head `h`, head dim `d` after `.view(..., H, D)`
(row-major, as in torch). -/
def packHD {H D : ℕ} (h : Fin H) (d : Fin D) : Fin (H * D) := finProdFinEquiv (h, d)

/-- State of `CausalAttentionWithoutBuffers` (`2_buffers/buffers.ipynb`): the
causal mask is a plain tensor attribute set in `__init__`. -/
structure CausalAttentionWithoutBuffers (ctx din dout : ℕ) where
  W_query : Fin dout → Fin din → ℝ
  b_query : Fin dout → ℝ
  W_key : Fin dout → Fin din → ℝ
  b_key : Fin dout → ℝ
  W_value : Fin dout → Fin din → ℝ
  b_value : Fin dout → ℝ
  dropoutP : ℝ
  mask : Fin ctx → Fin ctx → ℝ

/-- State of `CausalAttentionWithBuffer` (`2_buffers/buffers.ipynb`): the same
fields, but the mask is registered with `register_buffer` (the registration is
reflected in `stateDict`/`loadStateDict` below, not in the tensor data). -/
structure CausalAttentionWithBuffer (ctx din dout : ℕ) where
  W_query : Fin dout → Fin din → ℝ
  b_query : Fin dout → ℝ
  W_key : Fin dout → Fin din → ℝ
  b_key : Fin dout → ℝ
  W_value : Fin dout → Fin din → ℝ
  b_value : Fin dout → ℝ
  dropoutP : ℝ
  mask : Fin ctx → Fin ctx → ℝ

/-- `CausalAttentionWithoutBuffers.__init__` with the given linear-layer
weights: the mask attribute is `torch.triu(torch.ones(ctx, ctx), diagonal=1)`. -/
noncomputable def CausalAttentionWithoutBuffers.init {ctx din dout : ℕ}
    (Wq : Fin dout → Fin din → ℝ) (bq : Fin dout → ℝ)
    (Wk : Fin dout → Fin din → ℝ) (bk : Fin dout → ℝ)
    (Wv : Fin dout → Fin din → ℝ) (bv : Fin dout → ℝ) (p : ℝ) :
    CausalAttentionWithoutBuffers ctx din dout :=
  ⟨Wq, bq, Wk, bk, Wv, bv, p, triuOnes ctx⟩

/-- `CausalAttentionWithBuffer.__init__`: identical tensor contents, with the
mask passed to `register_buffer`. -/
noncomputable def CausalAttentionWithBuffer.init {ctx din dout : ℕ}
    (Wq : Fin dout → Fin din → ℝ) (bq : Fin dout → ℝ)
    (Wk : Fin dout → Fin din → ℝ) (bk : Fin dout → ℝ)
    (Wv : Fin dout → Fin din → ℝ) (bv : Fin dout → ℝ) (p : ℝ) :
    CausalAttentionWithBuffer ctx din dout :=
  ⟨Wq, bq, Wk, bk, Wv, bv, p, triuOnes ctx⟩

/-- `CausalAttentionWithoutBuffers.forward` on one batch element with
`num_tokens = n ≤ context_length`: project to keys/queries/values, mask the
raw scores causally, softmax the scaled scores, apply dropout, and multiply
with the values. -/
noncomputable def CausalAttentionWithoutBuffers.forward {ctx din dout n : ℕ}
    (s : CausalAttentionWithoutBuffers ctx din dout)
    (drop : (Fin n → Fin n → ℝ) → Fin n → Fin n → ℝ)
    (hn : n ≤ ctx) (x : Fin n → Fin din → ℝ) : Fin n → Fin dout → ℝ :=
  let keys := linearRow s.W_key s.b_key x
  let queries := linearRow s.W_query s.b_query x
  let values := linearRow s.W_value s.b_value x
  let attn_scores : Fin n → Fin n → ℝ := fun i j => ∑ d, queries i d * keys j d
  let attn_weights : Fin n → Fin n → ℝ := fun i =>
    maskedSoftmaxRow (fun j => tensorBool (s.mask (i.castLE hn) (j.castLE hn)))
      (fun j => attn_scores i j / (dout : ℝ) ^ ((1 : ℝ) / 2))
  let attn_weights := drop attn_weights
  fun i o => ∑ j, attn_weights i j * values j o

/-- `CausalAttentionWithBuffer.forward`: textually the same computation as
`CausalAttentionWithoutBuffers.forward`, reading the mask from the registered
buffer. -/
noncomputable def CausalAttentionWithBuffer.forward {ctx din dout n : ℕ}
    (s : CausalAttentionWithBuffer ctx din dout)
    (drop : (Fin n → Fin n → ℝ) → Fin n → Fin n → ℝ)
    (hn : n ≤ ctx) (x : Fin n → Fin din → ℝ) : Fin n → Fin dout → ℝ :=
  let keys := linearRow s.W_key s.b_key x
  let queries := linearRow s.W_query s.b_query x
  let values := linearRow s.W_value s.b_value x
  let attn_scores : Fin n → Fin n → ℝ := fun i j => ∑ d, queries i d * keys j d
  let attn_weights : Fin n → Fin n → ℝ := fun i =>
    maskedSoftmaxRow (fun j => tensorBool (s.mask (i.castLE hn) (j.castLE hn)))
      (fun j => attn_scores i j / (dout : ℝ) ^ ((1 : ℝ) / 2))
  let attn_weights := drop attn_weights
  fun i o => ∑ j, attn_weights i j * values j o

/-- State of `CasualAttention` (`4_batchnorm/batchnorm.ipynb`, cell 14): a
single causal-attention head used by `MHA_Wrapper`, with the mask registered
as a buffer. -/
structure CasualAttention (ctx din dout : ℕ) where
  W_query : Fin dout → Fin din → ℝ
  b_query : Fin dout → ℝ
  W_key : Fin dout → Fin din → ℝ
  b_key : Fin dout → ℝ
  W_value : Fin dout → Fin din → ℝ
  b_value : Fin dout → ℝ
  dropoutP : ℝ
  mask : Fin ctx → Fin ctx → ℝ

/-- `CasualAttention.forward`: same computation as the buffers-notebook
causal attention. -/
noncomputable def CasualAttention.forward {ctx din dout n : ℕ}
    (s : CasualAttention ctx din dout)
    (drop : (Fin n → Fin n → ℝ) → Fin n → Fin n → ℝ)
    (hn : n ≤ ctx) (x : Fin n → Fin din → ℝ) : Fin n → Fin dout → ℝ :=
  let keys := linearRow s.W_key s.b_key x
  let queries := linearRow s.W_query s.b_query x
  let values := linearRow s.W_value s.b_value x
  let attn_scores : Fin n → Fin n → ℝ := fun i j => ∑ d, queries i d * keys j d
  let attn_weights : Fin n → Fin n → ℝ := fun i =>
    maskedSoftmaxRow (fun j => tensorBool (s.mask (i.castLE hn) (j.castLE hn)))
      (fun j => attn_scores i j / (dout : ℝ) ^ ((1 : ℝ) / 2))
  let attn_weights := drop attn_weights
  fun i o => ∑ j, attn_weights i j * values j o

/-- State of `MHA_Wrapper`: `H` independent `CasualAttention` heads (a
`ModuleList`) and the output projection `nn.Linear(d_out*num_heads, d_out*num_heads)`. -/
structure MHA_Wrapper (ctx din dout H : ℕ) where
  heads : Fin H → CasualAttention ctx din dout
  outW : Fin (H * dout) → Fin (H * dout) → ℝ
  outB : Fin (H * dout) → ℝ

/-- `MHA_Wrapper.forward`: concatenate the head outputs along the feature
dimension (`torch.cat(..., dim=-1)`, head `h` occupying features
`h*d_out ..< (h+1)*d_out`) and apply the output projection. -/
noncomputable def MHA_Wrapper.forward {ctx din dout H n : ℕ}
    (s : MHA_Wrapper ctx din dout H)
    (drop : (Fin n → Fin n → ℝ) → Fin n → Fin n → ℝ)
    (hn : n ≤ ctx) (x : Fin n → Fin din → ℝ) : Fin n → Fin (H * dout) → ℝ :=
  let context_vec : Fin n → Fin (H * dout) → ℝ :=
    fun t c => (s.heads c.divNat).forward drop hn x t c.modNat
  fun t o => (∑ c, s.outW o c * context_vec t c) + s.outB o

/-- State of `MHA` (`4_batchnorm/batchnorm.ipynb`, cell 15) after its
constructor assertion `d_out % num_heads == 0` has succeeded, so
`d_out = H * D` with `head_dim = D` (the assertion itself is embedded as
`MHA.initCheck` below). -/
structure MHA (ctx din H D : ℕ) where
  W_query : Fin (H * D) → Fin din → ℝ
  b_query : Fin (H * D) → ℝ
  W_key : Fin (H * D) → Fin din → ℝ
  b_key : Fin (H * D) → ℝ
  W_value : Fin (H * D) → Fin din → ℝ
  b_value : Fin (H * D) → ℝ
  outW : Fin (H * D) → Fin (H * D) → ℝ
  outB : Fin (H * D) → ℝ
  dropoutP : ℝ
  mask : Fin ctx → Fin ctx → ℝ

/-- `MHA.__init__` with the given linear-layer weights (after the divisibility
assertion): the mask buffer is `torch.triu(torch.ones(ctx, ctx), diagonal=1)`. -/
noncomputable def MHA.init {ctx din H D : ℕ}
    (Wq : Fin (H * D) → Fin din → ℝ) (bq : Fin (H * D) → ℝ)
    (Wk : Fin (H * D) → Fin din → ℝ) (bk : Fin (H * D) → ℝ)
    (Wv : Fin (H * D) → Fin din → ℝ) (bv : Fin (H * D) → ℝ)
    (oW : Fin (H * D) → Fin (H * D) → ℝ) (oB : Fin (H * D) → ℝ) (p : ℝ) :
    MHA ctx din H D :=
  ⟨Wq, bq, Wk, bk, Wv, bv, oW, oB, p, triuOnes ctx⟩

/-- `MHA.forward` on one batch element, exactly as written in the source:
after `attn_scores.masked_fill_(mask_bool, -torch.inf)` the filled score
tensor holds `-∞`, embedded in `EReal`.  The post-softmax `attn_weights`
(with dropout) are computed, but the line
`context_vec = (attn_scores @ values).transpose(1, 2)` multiplies the raw
masked scores — not `attn_weights` — with the values, so the context and the
projected output live in `EReal`. -/
noncomputable def MHA.forward {ctx din H D n : ℕ}
    (s : MHA ctx din H D)
    (drop : (Fin H → Fin n → Fin n → ℝ) → Fin H → Fin n → Fin n → ℝ)
    (hn : n ≤ ctx) (x : Fin n → Fin din → ℝ) : Fin n → Fin (H * D) → EReal :=
  let keys := linearRow s.W_key s.b_key x
  let queries := linearRow s.W_query s.b_query x
  let values := linearRow s.W_value s.b_value x
  -- `.view(b, n, H, D)` then `.transpose(1, 2)`: per-head slices
  let keysH : Fin H → Fin n → Fin D → ℝ := fun h t d => keys t (packHD h d)
  let queriesH : Fin H → Fin n → Fin D → ℝ := fun h t d => queries t (packHD h d)
  let valuesH : Fin H → Fin n → Fin D → ℝ := fun h t d => values t (packHD h d)
  let attn_scores : Fin H → Fin n → Fin n → ℝ :=
    fun h i j => ∑ d, queriesH h i d * keysH h j d
  let mask_bool : Fin n → Fin n → Bool :=
    fun i j => tensorBool (s.mask (i.castLE hn) (j.castLE hn))
  -- `attn_scores.masked_fill_(mask_bool, -torch.inf)`
  let masked_scores : Fin H → Fin n → Fin n → EReal :=
    fun h i j => if mask_bool i j then (⊥ : EReal) else ((attn_scores h i j : ℝ) : EReal)
  -- computed and dropout-regularized, but unused by the next line
  let attn_weights : Fin H → Fin n → Fin n → ℝ := drop (fun h i =>
    maskedSoftmaxRow (fun j => mask_bool i j)
      (fun j => attn_scores h i j / (D : ℝ) ^ ((1 : ℝ) / 2)))
  -- `context_vec = (attn_scores @ values).transpose(1, 2)`
  let context_vec : Fin n → Fin H → Fin D → EReal :=
    fun t h d => ∑ j, masked_scores h t j * ((valuesH h j d : ℝ) : EReal)
  -- `.contiguous().view(b, num_tokens, d_out)` then `out_proj`
  let context_flat : Fin n → Fin (H * D) → EReal :=
    fun t c => context_vec t c.divNat c.modNat
  fun t o => (∑ c, ((s.outW o c : ℝ) : EReal) * context_flat t c) + ((s.outB o : ℝ) : EReal)

/-- State of `MultiHeadAttentionCombinedQKV` after its constructor assertion,
with `d_out = H * D`: one fused projection `qkv : nn.Linear(d_in, 3*d_out)`
and the output projection `proj`. -/
structure MultiHeadAttentionCombinedQKV (ctx din H D : ℕ) where
  qkvW : Fin (3 * (H * D)) → Fin din → ℝ
  qkvB : Fin (3 * (H * D)) → ℝ
  projW : Fin (H * D) → Fin (H * D) → ℝ
  projB : Fin (H * D) → ℝ
  dropoutP : ℝ
  mask : Fin ctx → Fin ctx → ℝ

/-- `MultiHeadAttentionCombinedQKV.__init__` (after the divisibility
assertion): the mask buffer is the strict upper-triangular ones matrix. -/
noncomputable def MultiHeadAttentionCombinedQKV.init {ctx din H D : ℕ}
    (W : Fin (3 * (H * D)) → Fin din → ℝ) (b : Fin (3 * (H * D)) → ℝ)
    (pW : Fin (H * D) → Fin (H * D) → ℝ) (pB : Fin (H * D) → ℝ) (p : ℝ) :
    MultiHeadAttentionCombinedQKV ctx din H D :=
  ⟨W, b, pW, pB, p, triuOnes ctx⟩

/-- The scaling step of `MultiHeadAttentionCombinedQKV.forward`, exactly as
written in the source: `attn_scores / keys.shape[-1]**-0.5`, i.e. division by
`head_dim ** (-0.5)` (Python real-exponent power). -/
noncomputable def combinedQKVScale (D : ℕ) (score : ℝ) : ℝ :=
  score / (D : ℝ) ^ (-((1 : ℝ) / 2))

/-- `MultiHeadAttentionCombinedQKV.forward` on one batch element: the fused
`qkv` output is `.view`ed to `(n, 3, H, D)` and `.permute`d, so component
`s ∈ {0,1,2}` of head `h`, dim `d` sits at flat feature `s*(H*D) + h*D + d`. -/
noncomputable def MultiHeadAttentionCombinedQKV.forward {ctx din H D n : ℕ}
    (s : MultiHeadAttentionCombinedQKV ctx din H D)
    (drop : (Fin H → Fin n → Fin n → ℝ) → Fin H → Fin n → Fin n → ℝ)
    (hn : n ≤ ctx) (x : Fin n → Fin din → ℝ) : Fin n → Fin (H * D) → ℝ :=
  let qkv := linearRow s.qkvW s.qkvB x
  let queries : Fin H → Fin n → Fin D → ℝ := fun h t d => qkv t (packHD (0 : Fin 3) (packHD h d))
  let keys : Fin H → Fin n → Fin D → ℝ := fun h t d => qkv t (packHD (1 : Fin 3) (packHD h d))
  let values : Fin H → Fin n → Fin D → ℝ := fun h t d => qkv t (packHD (2 : Fin 3) (packHD h d))
  let attn_scores : Fin H → Fin n → Fin n → ℝ :=
    fun h i j => ∑ d, queries h i d * keys h j d
  let mask_bool : Fin n → Fin n → Bool :=
    fun i j => tensorBool (s.mask (i.castLE hn) (j.castLE hn))
  let attn_weights : Fin H → Fin n → Fin n → ℝ := drop (fun h i =>
    maskedSoftmaxRow (fun j => mask_bool i j)
      (fun j => combinedQKVScale D (attn_scores h i j)))
  let context_vec : Fin n → Fin H → Fin D → ℝ :=
    fun t h d => ∑ j, attn_weights h t j * values h j d
  let context_flat : Fin n → Fin (H * D) → ℝ :=
    fun t c => context_vec t c.divNat c.modNat
  fun t o => (∑ c, s.projW o c * context_flat t c) + s.projB o

/-- A Python-level failure raised while a constructor body runs. -/
inductive PyError where
  | assertionError
  | zeroDivisionError
  | valueError
deriving DecidableEq

open Classical in
/-- The error paths of `MHA.__init__`: Python first evaluates
`d_out % num_heads` (raising `ZeroDivisionError` when `num_heads == 0`), then
checks `assert d_out % num_heads == 0, "d_out must be divisible by
num_heads"`, and later runs `self.dropout = nn.Dropout(dropout)`, which
raises `ValueError` when `dropout` lies outside `[0, 1]`.  The other
constructor arguments do not affect control flow. -/
noncomputable def MHA.initCheck (d_in d_out context_length : ℕ) (dropout : ℝ)
    (num_heads : ℕ) : Except PyError Unit :=
  if num_heads = 0 then .error .zeroDivisionError
  else if d_out % num_heads ≠ 0 then .error .assertionError
  else if dropout < 0 ∨ 1 < dropout then .error .valueError
  else .ok ()

open Classical in
/-- The error paths of `MultiHeadAttentionCombinedQKV.__init__`:
`assert d_out % num_heads == 0, "embed_dim is indivisible by num_heads"` with
Python's `ZeroDivisionError` at `num_heads == 0`, and then
`self.dropout = nn.Dropout(dropout)`, which raises `ValueError` when
`dropout` lies outside `[0, 1]`. -/
noncomputable def MultiHeadAttentionCombinedQKV.initCheck
    (d_in d_out num_heads context_length : ℕ) (dropout : ℝ) : Except PyError Unit :=
  if num_heads = 0 then .error .zeroDivisionError
  else if d_out % num_heads ≠ 0 then .error .assertionError
  else if dropout < 0 ∨ 1 < dropout then .error .valueError
  else .ok ()

/-- The error paths of `MHAPyTorchScaledDotProduct.__init__` (only the
constructor is embedded; its forward pass calls the library
`scaled_dot_product_attention`):
`assert d_out % num_heads == 0, "embed_dim is indivisible by num_heads"` with
Python's `ZeroDivisionError` at `num_heads == 0`.  This class stores
`self.dropout = dropout` as a plain float, so `nn.Dropout`'s range check
never runs and no further error path exists. -/
def MHAPyTorchScaledDotProduct.initCheck (d_in d_out num_heads context_length : ℕ)
    (dropout : ℝ) : Except PyError Unit :=
  if num_heads = 0 then .error .zeroDivisionError
  else if d_out % num_heads = 0 then .ok ()
  else .error .assertionError

/-- The error paths of `MHAPyTorchSDPAWithoutFlash.__init__` (only the
constructor is embedded; its forward pass calls the library
`scaled_dot_product_attention` with an explicit mask):
`assert d_out % num_heads == 0, "embed_dim is indivisible by num_heads"` with
Python's `ZeroDivisionError` at `num_heads == 0`.  This class also stores
`self.dropout = dropout` as a plain float, so no further error path exists. -/
def MHAPyTorchSDPAWithoutFlash.initCheck (d_in d_out num_heads context_length : ℕ)
    (dropout : ℝ) : Except PyError Unit :=
  if num_heads = 0 then .error .zeroDivisionError
  else if d_out % num_heads = 0 then .ok ()
  else .error .assertionError

/-- Modelled from the spec: the contents of `nn.Module.state_dict()` for the
two causal-attention classes.  Serialization sweeps over registered
parameters and registered buffers; the notebook builds the linear layers
with `qkv_bias=False`, so the parameters are the three layer weights, and
the mask entry is present exactly when the mask was registered with
`register_buffer` (the recorded notebook outputs show these key sets). -/
structure CAStateDict (ctx din dout : ℕ) where
  W_query : Fin dout → Fin din → ℝ
  W_key : Fin dout → Fin din → ℝ
  W_value : Fin dout → Fin din → ℝ
  mask : Option (Fin ctx → Fin ctx → ℝ)

/-- Modelled from the spec: the key set of
`CausalAttentionWithBuffer.state_dict()` — the registered buffer `mask` is
swept in alongside the parameters. -/
def CausalAttentionWithBuffer.stateDictKeys : List String :=
  ["mask", "W_query.weight", "W_key.weight", "W_value.weight"]

/-- Modelled from the spec: the key set of
`CausalAttentionWithoutBuffers.state_dict()` — the plain attribute `mask` is
not swept in. -/
def CausalAttentionWithoutBuffers.stateDictKeys : List String :=
  ["W_query.weight", "W_key.weight", "W_value.weight"]

/-- Modelled from the spec: `CausalAttentionWithBuffer.state_dict()` holds the
parameters and the registered `mask` buffer. -/
noncomputable def CausalAttentionWithBuffer.stateDict {ctx din dout : ℕ}
    (s : CausalAttentionWithBuffer ctx din dout) : CAStateDict ctx din dout :=
  ⟨s.W_query, s.W_key, s.W_value, some s.mask⟩

/-- Modelled from the spec: `CausalAttentionWithoutBuffers.state_dict()` holds
the parameters only; the plain `mask` attribute is absent. -/
noncomputable def CausalAttentionWithoutBuffers.stateDict {ctx din dout : ℕ}
    (s : CausalAttentionWithoutBuffers ctx din dout) : CAStateDict ctx din dout :=
  ⟨s.W_query, s.W_key, s.W_value, none⟩

/-- Modelled from the spec: `load_state_dict` writes each entry of the saved
dict into the matching registered tensor; `mask` is registered, so a saved
mask overwrites the freshly constructed one. -/
noncomputable def CausalAttentionWithBuffer.loadStateDict {ctx din dout : ℕ}
    (s : CausalAttentionWithBuffer ctx din dout) (d : CAStateDict ctx din dout) :
    CausalAttentionWithBuffer ctx din dout :=
  { s with W_query := d.W_query, W_key := d.W_key, W_value := d.W_value,
           mask := d.mask.getD s.mask }

/-- Modelled from the spec: `load_state_dict` on
`CausalAttentionWithoutBuffers` writes the parameter entries; `mask` is not a
registered name, so the module's plain attribute is untouched. -/
noncomputable def CausalAttentionWithoutBuffers.loadStateDict {ctx din dout : ℕ}
    (s : CausalAttentionWithoutBuffers ctx din dout) (d : CAStateDict ctx din dout) :
    CausalAttentionWithoutBuffers ctx din dout :=
  { s with W_query := d.W_query, W_key := d.W_key, W_value := d.W_value }

/-- Modelled from the spec: the registered parameter names of
`CausalAttentionWithBuffer` (`module.parameters()`, the tensors a training
step writes); `register_buffer` does not create a parameter. -/
def CausalAttentionWithBuffer.parameterNames : List String :=
  ["W_query.weight", "W_key.weight", "W_value.weight"]

/-- Modelled from the spec: the registered buffer names of
`CausalAttentionWithBuffer`. -/
def CausalAttentionWithBuffer.bufferNames : List String := ["mask"]

/-- Modelled from the spec: the registered parameter names of `MHA`
(`qkv_bias=False`, and `out_proj` is an `nn.Linear` with its default bias). -/
def MHA.parameterNames : List String :=
  ["W_query.weight", "W_key.weight", "W_value.weight",
   "out_proj.weight", "out_proj.bias"]

/-- Modelled from the spec: the registered buffer names of `MHA`. -/
def MHA.bufferNames : List String := ["mask"]

/-- Modelled from the spec: one optimizer step writes new values into the
registered parameter tensors of `CausalAttentionWithBuffer` and into nothing
else. -/
noncomputable def CausalAttentionWithBuffer.optimStep {ctx din dout : ℕ}
    (s : CausalAttentionWithBuffer ctx din dout)
    (Wq Wk Wv : Fin dout → Fin din → ℝ) : CausalAttentionWithBuffer ctx din dout :=
  { s with W_query := Wq, W_key := Wk, W_value := Wv }

/-- `CausalAttentionWithBuffer.forward` as a state transformer.  The method
body reads `self.mask` but assigns no attribute of `self` — the in-place
`masked_fill_` mutates the local `attn_scores` tensor — so the module state
returned alongside the output is the state received. -/
noncomputable def CausalAttentionWithBuffer.forwardS {ctx din dout n : ℕ}
    (s : CausalAttentionWithBuffer ctx din dout)
    (drop : (Fin n → Fin n → ℝ) → Fin n → Fin n → ℝ)
    (hn : n ≤ ctx) (x : Fin n → Fin din → ℝ) :
    (Fin n → Fin dout → ℝ) × CausalAttentionWithBuffer ctx din dout :=
  (s.forward drop hn x, s)

/-- `MHA.forward` as a state transformer: as in
`CausalAttentionWithBuffer.forwardS`, `masked_fill_` mutates the local score
tensor and no attribute of `self` is assigned. -/
noncomputable def MHA.forwardS {ctx din H D n : ℕ}
    (s : MHA ctx din H D)
    (drop : (Fin H → Fin n → Fin n → ℝ) → Fin H → Fin n → Fin n → ℝ)
    (hn : n ≤ ctx) (x : Fin n → Fin din → ℝ) :
    (Fin n → Fin (H * D) → EReal) × MHA ctx din H D :=
  (s.forward drop hn x, s)

/-- State of `BatchNorm` (`4_batchnorm/batchnorm.ipynb`, cell 5), including
the `nn.Module` training flag. -/
structure BatchNorm (C : ℕ) where
  eps : ℝ
  momentum : ℝ
  affine : Bool
  track_running_stats : Bool
  scale : Fin C → ℝ
  shift : Fin C → ℝ
  exp_mean : Fin C → ℝ
  exp_var : Fin C → ℝ
  training : Bool

/-- `x.mean(dim=[0, 2])` of the input viewed as `[batch_size, channels, n]`. -/
noncomputable def batchMean {b C n : ℕ} (x : Fin b → Fin C → Fin n → ℝ) :
    Fin C → ℝ :=
  fun c => (∑ β, ∑ k, x β c k) / (b * n : ℕ)

/-- `(x ** 2).mean(dim=[0, 2])`. -/
noncomputable def batchMeanSq {b C n : ℕ} (x : Fin b → Fin C → Fin n → ℝ) :
    Fin C → ℝ :=
  fun c => (∑ β, ∑ k, x β c k ^ 2) / (b * n : ℕ)

/-- `var = mean_x2 - mean**2`, the per-channel batch variance
`E[x²] − (E[x])²`. -/
noncomputable def batchVar {b C n : ℕ} (x : Fin b → Fin C → Fin n → ℝ) :
    Fin C → ℝ :=
  fun c => batchMeanSq x c - batchMean x c ^ 2

/-- `BatchNorm.forward` on input viewed as `[batch_size, channels, n]`
(`x.view(batch_size, self.channels, -1)` flattens the trailing dimensions;
the result is viewed back to the input shape, which the indexed embedding
preserves by construction).  Returns the output together with the module
state, whose `exp_mean`/`exp_var` buffers are updated exactly when
`self.training and self.track_running_stats`. -/
noncomputable def BatchNorm.forward {C b n : ℕ} (s : BatchNorm C)
    (x : Fin b → Fin C → Fin n → ℝ) :
    (Fin b → Fin C → Fin n → ℝ) × BatchNorm C :=
  let stats : (Fin C → ℝ) × (Fin C → ℝ) × BatchNorm C :=
    if s.training || !s.track_running_stats then
      let mean := batchMean x
      let var := batchVar x
      let s1 := if s.training && s.track_running_stats then
          { s with
            exp_mean := fun c => (1 - s.momentum) * s.exp_mean c + s.momentum * mean c,
            exp_var := fun c => (1 - s.momentum) * s.exp_var c + s.momentum * var c }
        else s
      (mean, var, s1)
    else (s.exp_mean, s.exp_var, s)
  let mean := stats.1
  let var := stats.2.1
  let x_norm : Fin b → Fin C → Fin n → ℝ :=
    fun β c k => (x β c k - mean c) / Real.sqrt (var c + s.eps)
  let result : Fin b → Fin C → Fin n → ℝ :=
    if s.affine then fun β c k => s.scale c * x_norm β c k + s.shift c else x_norm
  (result, stats.2.2)

/-- State of `LayerNorm` (`1_mha/mha_test.ipynb`): `k` is the flattened
`normalized_shape`. -/
structure LayerNorm (k : ℕ) where
  eps : ℝ
  elementwise_affine : Bool
  gain : Fin k → ℝ
  bias : Fin k → ℝ

/-- `x.mean(dim=dims, keepdim=True)` over the `normalized_shape` dimensions,
with the leading dimensions flattened to `Fin m`. -/
noncomputable def lnMean {m k : ℕ} (x : Fin m → Fin k → ℝ) : Fin m → ℝ :=
  fun t => (∑ j, x t j) / (k : ℕ)

/-- `(x**2).mean(dim=dims, keepdim=True)`. -/
noncomputable def lnMeanSq {m k : ℕ} (x : Fin m → Fin k → ℝ) : Fin m → ℝ :=
  fun t => (∑ j, x t j ^ 2) / (k : ℕ)

/-- `var = mean_x2 - mean ** 2`, the `Var(x) = E[X^2] - E[X]^2` line of
`LayerNorm.forward`. -/
noncomputable def lnVar {m k : ℕ} (x : Fin m → Fin k → ℝ) : Fin m → ℝ :=
  fun t => lnMeanSq x t - lnMean x t ^ 2

/-- `LayerNorm.forward` with the leading dimensions flattened to `Fin m` and
the `normalized_shape` dimensions flattened to `Fin k` (the shape assertion
of the source is captured by the typing). -/
noncomputable def LayerNorm.forward {m k : ℕ} (s : LayerNorm k)
    (x : Fin m → Fin k → ℝ) : Fin m → Fin k → ℝ :=
  let x_norm : Fin m → Fin k → ℝ :=
    fun t j => (x t j - lnMean x t) / Real.sqrt (lnVar x t + s.eps)
  if s.elementwise_affine then fun t j => s.gain j * x_norm t j + s.bias j
  else x_norm

/-- Test fixture: `MHA(d_in=1, d_out=1, context_length=2, dropout=0.0,
num_heads=1)` with every linear weight set to 1 and zero biases. -/
noncomputable def mhaOnes : MHA 2 1 1 1 :=
  MHA.init (fun _ _ => 1) (fun _ => 0) (fun _ _ => 1) (fun _ => 0)
    (fun _ _ => 1) (fun _ => 0) (fun _ _ => 1) (fun _ => 0) 0

/-- Test fixture: a `CasualAttention(d_in=1, d_out=1, context_length=2,
dropout=0.0)` head with every linear weight set to 1 and zero biases. -/
noncomputable def caOnes : CasualAttention 2 1 1 :=
  ⟨fun _ _ => 1, fun _ => 0, fun _ _ => 1, fun _ => 0, fun _ _ => 1, fun _ => 0, 0, triuOnes 2⟩

/-- Test fixture: `MHA_Wrapper` with the single head `caOnes` and an identity
output projection (weight 1, bias 0). -/
noncomputable def wrapOnes : MHA_Wrapper 2 1 1 1 :=
  ⟨fun _ => caOnes, fun _ _ => 1, fun _ => 0⟩

/-- Test fixture: `CausalAttentionWithoutBuffers` as freshly constructed with
all linear weights 1 and dropout 0. -/
noncomputable def caNoBufOnes : CausalAttentionWithoutBuffers 2 1 1 :=
  CausalAttentionWithoutBuffers.init (fun _ _ => 1) (fun _ => 0) (fun _ _ => 1)
    (fun _ => 0) (fun _ _ => 1) (fun _ => 0) 0

/-- Test fixture: `CausalAttentionWithBuffer` as freshly constructed with all
linear weights 1 and dropout 0. -/
noncomputable def caBufOnes : CausalAttentionWithBuffer 2 1 1 :=
  CausalAttentionWithBuffer.init (fun _ _ => 1) (fun _ => 0) (fun _ _ => 1)
    (fun _ => 0) (fun _ _ => 1) (fun _ => 0) 0

/-- Test input with two tokens `0` and `1` in a one-dimensional embedding. -/
noncomputable def xUp : Fin 2 → Fin 1 → ℝ := fun t _ => ((t : ℕ) : ℝ)

/-- Test input with two tokens `0` and `-1`: it agrees with `xUp` at position
0 and differs at position 1. -/
noncomputable def xDown : Fin 2 → Fin 1 → ℝ := fun t _ => -((t : ℕ) : ℝ)

/-- Test input with two tokens both `1`. -/
noncomputable def xOnes : Fin 2 → Fin 1 → ℝ := fun _ _ => 1

/-- Test fixture: `BatchNorm(1)` in training mode with default
`momentum=0.1`, `affine=True`, `track_running_stats=True` and `eps = 1`. -/
noncomputable def bnTrain : BatchNorm 1 :=
  ⟨1, 1 / 10, true, true, fun _ => 1, fun _ => 0, fun _ => 0, fun _ => 1, true⟩

/-- Test input for `bnTrain` of shape `[1, 1, 1]`. -/
noncomputable def xBn : Fin 1 → Fin 1 → Fin 1 → ℝ := fun _ _ _ => 0

/-- C5: using a registered buffer instead of a plain tensor attribute does not
change the computed function — with identical `W_query`/`W_key`/`W_value`
weights and biases, dropout (same probability and coin flips, realized as the
same `drop` action), and mask contents, `CausalAttentionWithBuffer.forward`
equals `CausalAttentionWithoutBuffers.forward` on every input. -/
theorem withBuffer_forward_eq_withoutBuffers {ctx din dout n : ℕ}
    (Wq : Fin dout → Fin din → ℝ) (bq : Fin dout → ℝ)
    (Wk : Fin dout → Fin din → ℝ) (bk : Fin dout → ℝ)
    (Wv : Fin dout → Fin din → ℝ) (bv : Fin dout → ℝ)
    (p : ℝ) (mask : Fin ctx → Fin ctx → ℝ)
    (drop : (Fin n → Fin n → ℝ) → Fin n → Fin n → ℝ)
    (hn : n ≤ ctx) (x : Fin n → Fin din → ℝ) :
    CausalAttentionWithBuffer.forward ⟨Wq, bq, Wk, bk, Wv, bv, p, mask⟩ drop hn x
      = CausalAttentionWithoutBuffers.forward ⟨Wq, bq, Wk, bk, Wv, bv, p, mask⟩ drop hn x :=
  rfl

/-- Witness for C5 at a concrete module state and input. -/
theorem withBuffer_forward_eq_withoutBuffers_witness :
    CausalAttentionWithBuffer.forward
        (⟨fun _ _ => 1, fun _ => 0, fun _ _ => 1, fun _ => 0, fun _ _ => 1, fun _ => 0, 0,
          triuOnes 2⟩ : CausalAttentionWithBuffer 2 1 1) id (le_refl 2) xUp
      = CausalAttentionWithoutBuffers.forward
        (⟨fun _ _ => 1, fun _ => 0, fun _ _ => 1, fun _ => 0, fun _ _ => 1, fun _ => 0, 0,
          triuOnes 2⟩ : CausalAttentionWithoutBuffers 2 1 1) id (le_refl 2) xUp :=
  withBuffer_forward_eq_withoutBuffers _ _ _ _ _ _ _ _ id (le_refl 2) xUp

/-- C6: the state dict of `CausalAttentionWithBuffer` has a `mask` entry and
the save/modify/load round trip restores the modified mask into a freshly
constructed module, while `CausalAttentionWithoutBuffers` has no `mask`
entry, so the same round trip leaves a fresh module's mask at its freshly
constructed (`triu` ones) value. -/
theorem state_dict_sweeps_buffers_not_plain_attributes :
    ("mask" ∈ CausalAttentionWithBuffer.stateDictKeys) ∧
    ("mask" ∉ CausalAttentionWithoutBuffers.stateDictKeys) ∧
    (∀ (ctx din dout : ℕ) (s : CausalAttentionWithBuffer ctx din dout)
        (m : Fin ctx → Fin ctx → ℝ)
        (Wq : Fin dout → Fin din → ℝ) (bq : Fin dout → ℝ)
        (Wk : Fin dout → Fin din → ℝ) (bk : Fin dout → ℝ)
        (Wv : Fin dout → Fin din → ℝ) (bv : Fin dout → ℝ) (p : ℝ),
        (CausalAttentionWithBuffer.loadStateDict
            (CausalAttentionWithBuffer.init Wq bq Wk bk Wv bv p)
            (CausalAttentionWithBuffer.stateDict { s with mask := m })).mask = m) ∧
    (∀ (ctx din dout : ℕ) (s : CausalAttentionWithoutBuffers ctx din dout)
        (m : Fin ctx → Fin ctx → ℝ)
        (Wq : Fin dout → Fin din → ℝ) (bq : Fin dout → ℝ)
        (Wk : Fin dout → Fin din → ℝ) (bk : Fin dout → ℝ)
        (Wv : Fin dout → Fin din → ℝ) (bv : Fin dout → ℝ) (p : ℝ),
        (CausalAttentionWithoutBuffers.loadStateDict
            (CausalAttentionWithoutBuffers.init Wq bq Wk bk Wv bv p)
            (CausalAttentionWithoutBuffers.stateDict { s with mask := m })).mask
          = triuOnes ctx) :=
  ⟨by decide, by decide, fun _ _ _ _ _ _ _ _ _ _ _ _ => rfl,
   fun _ _ _ _ _ _ _ _ _ _ _ _ => rfl⟩

/-- C7: the mask is non-trainable state — the forward pass of
`CausalAttentionWithBuffer` and of `MHA` returns the module state with the
mask buffer unchanged (`masked_fill_` mutates the local score tensor), the
mask is a registered buffer and not a registered parameter, and an optimizer
step over the registered parameters leaves the mask unchanged. -/
theorem mask_is_nontrainable_state :
    (∀ (ctx din dout n : ℕ) (s : CausalAttentionWithBuffer ctx din dout)
        (drop : (Fin n → Fin n → ℝ) → Fin n → Fin n → ℝ)
        (hn : n ≤ ctx) (x : Fin n → Fin din → ℝ),
        (s.forwardS drop hn x).2.mask = s.mask) ∧
    (∀ (ctx din H D n : ℕ) (s : MHA ctx din H D)
        (drop : (Fin H → Fin n → Fin n → ℝ) → Fin H → Fin n → Fin n → ℝ)
        (hn : n ≤ ctx) (x : Fin n → Fin din → ℝ),
        (s.forwardS drop hn x).2.mask = s.mask) ∧
    ("mask" ∉ CausalAttentionWithBuffer.parameterNames) ∧
    ("mask" ∈ CausalAttentionWithBuffer.bufferNames) ∧
    ("mask" ∉ MHA.parameterNames) ∧
    ("mask" ∈ MHA.bufferNames) ∧
    (∀ (ctx din dout : ℕ) (s : CausalAttentionWithBuffer ctx din dout)
        (Wq Wk Wv : Fin dout → Fin din → ℝ),
        (s.optimStep Wq Wk Wv).mask = s.mask) :=
  ⟨fun _ _ _ _ _ _ _ _ => rfl, fun _ _ _ _ _ _ _ _ _ => rfl,
   by decide, by decide, by decide, by decide, fun _ _ _ _ _ _ _ => rfl⟩

/-- Witness for C7 at a concrete module state and input. -/
theorem mask_is_nontrainable_state_witness :
    (CausalAttentionWithBuffer.forwardS caBufOnes id (le_refl 2) xUp).2.mask
      = caBufOnes.mask :=
  mask_is_nontrainable_state.1 2 1 1 2 caBufOnes id (le_refl 2) xUp

/-- C9 counterexample: with `num_heads = 0` and `d_out = 0`, `num_heads`
evenly divides `d_out`, yet construction of `MHA` does not succeed — Python
raises `ZeroDivisionError` at `d_out % num_heads` before the assert — so the
claim's "construction succeeds whenever `num_heads` divides `d_out`" fails
as stated. -/
theorem initCheck_zero_heads_counterexample :
    (0 : ℕ) ∣ 0 ∧ MHA.initCheck 1 0 1024 0 0 = .error .zeroDivisionError :=
  ⟨by decide, rfl⟩

/-- C9 (amended): for `num_heads ≥ 1`, the constructor of each fused variant
(`MHA`, `MultiHeadAttentionCombinedQKV`, `MHAPyTorchScaledDotProduct`,
`MHAPyTorchSDPAWithoutFlash`) raises its `AssertionError` iff `num_heads`
does not evenly divide `d_out`.  Construction succeeds iff `num_heads`
divides `d_out` and, for `MHA` and `MultiHeadAttentionCombinedQKV` (which
run `nn.Dropout(dropout)`), additionally `dropout` lies in `[0, 1]` —
outside that range `nn.Dropout` raises `ValueError`; the two
`scaled_dot_product_attention` variants store `dropout` as a plain float and
succeed for every dropout.  With `num_heads = 0`, Python's
`d_out % num_heads` raises `ZeroDivisionError` before the assert. -/
theorem initCheck_assert_iff (d_in d_out context_length num_heads : ℕ)
    (dropout : ℝ) (hH : 1 ≤ num_heads) :
    (MHA.initCheck d_in d_out context_length dropout num_heads
        = .error .assertionError ↔ ¬ num_heads ∣ d_out) ∧
    (MHA.initCheck d_in d_out context_length dropout num_heads
        = .ok () ↔ num_heads ∣ d_out ∧ 0 ≤ dropout ∧ dropout ≤ 1) ∧
    (MultiHeadAttentionCombinedQKV.initCheck d_in d_out num_heads context_length dropout
        = .error .assertionError ↔ ¬ num_heads ∣ d_out) ∧
    (MultiHeadAttentionCombinedQKV.initCheck d_in d_out num_heads context_length dropout
        = .ok () ↔ num_heads ∣ d_out ∧ 0 ≤ dropout ∧ dropout ≤ 1) ∧
    (MHAPyTorchScaledDotProduct.initCheck d_in d_out num_heads context_length dropout
        = .error .assertionError ↔ ¬ num_heads ∣ d_out) ∧
    (MHAPyTorchScaledDotProduct.initCheck d_in d_out num_heads context_length dropout
        = .ok () ↔ num_heads ∣ d_out) ∧
    (MHAPyTorchSDPAWithoutFlash.initCheck d_in d_out num_heads context_length dropout
        = .error .assertionError ↔ ¬ num_heads ∣ d_out) ∧
    (MHAPyTorchSDPAWithoutFlash.initCheck d_in d_out num_heads context_length dropout
        = .ok () ↔ num_heads ∣ d_out) := by
  have h0 : num_heads ≠ 0 := by omega
  have hdvd : num_heads ∣ d_out ↔ d_out % num_heads = 0 :=
    Nat.dvd_iff_mod_eq_zero
  by_cases hm : d_out % num_heads = 0 <;> by_cases hp : dropout < 0 ∨ 1 < dropout
  · have hrange : ¬ (0 ≤ dropout ∧ dropout ≤ 1) := by
      rcases hp with h | h <;> intro hc <;> linarith [hc.1, hc.2]
    simp [MHA.initCheck, MultiHeadAttentionCombinedQKV.initCheck,
      MHAPyTorchScaledDotProduct.initCheck, MHAPyTorchSDPAWithoutFlash.initCheck,
      h0, hm, hdvd, hp, hrange]
  · have hrange : 0 ≤ dropout ∧ dropout ≤ 1 := by
      push_neg at hp
      exact ⟨hp.1, hp.2⟩
    simp [MHA.initCheck, MultiHeadAttentionCombinedQKV.initCheck,
      MHAPyTorchScaledDotProduct.initCheck, MHAPyTorchSDPAWithoutFlash.initCheck,
      h0, hm, hdvd, hp, hrange]
  · simp [MHA.initCheck, MultiHeadAttentionCombinedQKV.initCheck,
      MHAPyTorchScaledDotProduct.initCheck, MHAPyTorchSDPAWithoutFlash.initCheck,
      h0, hm, hdvd, hp]
  · simp [MHA.initCheck, MultiHeadAttentionCombinedQKV.initCheck,
      MHAPyTorchScaledDotProduct.initCheck, MHAPyTorchSDPAWithoutFlash.initCheck,
      h0, hm, hdvd, hp]

/-- Witness for C9 at `d_out = 7`, `num_heads = 3`, `dropout = 0`. -/
theorem initCheck_assert_iff_witness :
    (MHA.initCheck 1 7 16 0 3
        = .error .assertionError ↔ ¬ (3 : ℕ) ∣ 7) ∧
    (MHA.initCheck 1 7 16 0 3
        = .ok () ↔ (3 : ℕ) ∣ 7 ∧ (0 : ℝ) ≤ 0 ∧ (0 : ℝ) ≤ 1) ∧
    (MultiHeadAttentionCombinedQKV.initCheck 1 7 3 16 0
        = .error .assertionError ↔ ¬ (3 : ℕ) ∣ 7) ∧
    (MultiHeadAttentionCombinedQKV.initCheck 1 7 3 16 0
        = .ok () ↔ (3 : ℕ) ∣ 7 ∧ (0 : ℝ) ≤ 0 ∧ (0 : ℝ) ≤ 1) ∧
    (MHAPyTorchScaledDotProduct.initCheck 1 7 3 16 0
        = .error .assertionError ↔ ¬ (3 : ℕ) ∣ 7) ∧
    (MHAPyTorchScaledDotProduct.initCheck 1 7 3 16 0
        = .ok () ↔ (3 : ℕ) ∣ 7) ∧
    (MHAPyTorchSDPAWithoutFlash.initCheck 1 7 3 16 0
        = .error .assertionError ↔ ¬ (3 : ℕ) ∣ 7) ∧
    (MHAPyTorchSDPAWithoutFlash.initCheck 1 7 3 16 0
        = .ok () ↔ (3 : ℕ) ∣ 7) :=
  initCheck_assert_iff 1 7 16 3 0 (by decide)

/-- C8: `BatchNorm.forward` selects its normalization statistics by mode — in
training mode (or whenever `track_running_stats` is `False`) it normalizes
with the current batch's per-channel mean and `E[x²] − (E[x])²` variance, and
in evaluation mode with `track_running_stats` `True` it normalizes with the
stored `exp_mean`/`exp_var` buffers; the output indices range over the input
indices, so the output shape equals the input shape by construction. -/
theorem batchNorm_mode_selection {C b n : ℕ} (s : BatchNorm C)
    (x : Fin b → Fin C → Fin n → ℝ) :
    ((s.training = true ∨ s.track_running_stats = false) →
      (s.forward x).1 = fun β c k =>
        let xn := (x β c k - batchMean x c) / Real.sqrt (batchVar x c + s.eps)
        if s.affine then s.scale c * xn + s.shift c else xn) ∧
    ((s.training = false ∧ s.track_running_stats = true) →
      (s.forward x).1 = fun β c k =>
        let xn := (x β c k - s.exp_mean c) / Real.sqrt (s.exp_var c + s.eps)
        if s.affine then s.scale c * xn + s.shift c else xn) := by
  constructor
  · intro h
    have hcond : (s.training || !s.track_running_stats) = true := by
      rcases h with h | h <;> simp [h]
    by_cases ha : s.affine <;> simp [BatchNorm.forward, hcond, ha]
  · rintro ⟨h1, h2⟩
    have hcond : (s.training || !s.track_running_stats) = false := by simp [h1, h2]
    by_cases ha : s.affine <;> simp [BatchNorm.forward, hcond, ha]

/-- Witness for C8: `bnTrain` is in training mode, so the batch statistics
are selected. -/
theorem batchNorm_mode_selection_witness :
    (bnTrain.forward xBn).1 = fun β c k =>
      let xn := (xBn β c k - batchMean xBn c) / Real.sqrt (batchVar xBn c + bnTrain.eps)
      if bnTrain.affine then bnTrain.scale c * xn + bnTrain.shift c else xn :=
  (batchNorm_mode_selection bnTrain xBn).1 (Or.inl rfl)

/-- Helper: for any finite family, `E[f²] − (E[f])² ≥ 0` (with Lean's
`x / 0 = 0` convention covering the empty case). -/
theorem sum_sq_div_sub_sq_nonneg {ι : Type*} [Fintype ι] (f : ι → ℝ) :
    0 ≤ (∑ i, f i ^ 2) / (Fintype.card ι : ℝ)
      - ((∑ i, f i) / (Fintype.card ι : ℝ)) ^ 2 := by
  rcases Nat.eq_zero_or_pos (Fintype.card ι) with h | h
  · simp [h]
  · have hN : (0 : ℝ) < (Fintype.card ι : ℝ) := by exact_mod_cast h
    have key : (∑ i, f i) ^ 2 ≤ ((Finset.univ : Finset ι).card : ℝ) * ∑ i, f i ^ 2 :=
      sq_sum_le_card_mul_sum_sq
    rw [Finset.card_univ] at key
    rw [sub_nonneg, div_pow]
    calc (∑ i, f i) ^ 2 / (Fintype.card ι : ℝ) ^ 2
        ≤ ((Fintype.card ι : ℝ) * ∑ i, f i ^ 2) / (Fintype.card ι : ℝ) ^ 2 := by
          apply div_le_div_of_nonneg_right key (by positivity)
      _ = (∑ i, f i ^ 2) / (Fintype.card ι : ℝ) := by
          rw [sq]
          rw [mul_div_mul_left _ _ (ne_of_gt hN)]

/-- Helper: the `LayerNorm` variance `E[x²] − (E[x])²` is nonnegative. -/
theorem lnVar_nonneg {m k : ℕ} (x : Fin m → Fin k → ℝ) (t : Fin m) :
    0 ≤ lnVar x t := by
  have h := sum_sq_div_sub_sq_nonneg (fun j : Fin k => x t j)
  simpa [lnVar, lnMeanSq, lnMean] using h

/-- Helper: the `BatchNorm` batch variance `E[x²] − (E[x])²` is nonnegative. -/
theorem batchVar_nonneg {b C n : ℕ} (x : Fin b → Fin C → Fin n → ℝ) (c : Fin C) :
    0 ≤ batchVar x c := by
  have h := sum_sq_div_sub_sq_nonneg (fun p : Fin b × Fin n => x p.1 c p.2)
  simpa [batchVar, batchMeanSq, batchMean, Fintype.sum_prod_type] using h

/-- C10: the normalization divisions are always well defined — in both
`LayerNorm.forward` and `BatchNorm.forward` the `E[x²] − (E[x])²` variance is
nonnegative, so with `eps > 0` the divisor `sqrt(var + eps)` is strictly
positive and the normalization never divides by zero. -/
theorem normalization_divisor_positive :
    (∀ (m k : ℕ) (s : LayerNorm k) (x : Fin m → Fin k → ℝ) (t : Fin m),
      0 < s.eps → 0 ≤ lnVar x t ∧ 0 < Real.sqrt (lnVar x t + s.eps)) ∧
    (∀ (b C n : ℕ) (s : BatchNorm C) (x : Fin b → Fin C → Fin n → ℝ) (c : Fin C),
      0 < s.eps → 0 ≤ batchVar x c ∧ 0 < Real.sqrt (batchVar x c + s.eps)) := by
  constructor
  · intro m k s x t heps
    have h := lnVar_nonneg x t
    exact ⟨h, Real.sqrt_pos.mpr (by linarith)⟩
  · intro b C n s x c heps
    have h := batchVar_nonneg x c
    exact ⟨h, Real.sqrt_pos.mpr (by linarith)⟩

/-- Witness for C10 at a concrete `LayerNorm` state with `eps = 1` and a zero
input. -/
theorem normalization_divisor_positive_witness :
    0 ≤ lnVar (fun (_ : Fin 1) (_ : Fin 1) => (0 : ℝ)) 0
      ∧ 0 < Real.sqrt (lnVar (fun (_ : Fin 1) (_ : Fin 1) => (0 : ℝ)) 0 + 1) :=
  normalization_divisor_positive.1 1 1 ⟨1, true, fun _ => 1, fun _ => 0⟩
    (fun _ _ => 0) 0 (by norm_num)

/-- Helper: a masked position gets softmax weight `0`. -/
theorem maskedSoftmaxRow_eq_zero {n : ℕ} {m : Fin n → Bool} {s : Fin n → ℝ}
    {j : Fin n} (h : m j = true) : maskedSoftmaxRow m s j = 0 := by
  simp [maskedSoftmaxRow, h]

/-- Helper: the masked softmax depends only on the unmasked scores. -/
theorem maskedSoftmaxRow_congr {n : ℕ} {m : Fin n → Bool} {s s' : Fin n → ℝ}
    (h : ∀ j, m j = false → s j = s' j) :
    maskedSoftmaxRow m s = maskedSoftmaxRow m s' := by
  funext j
  by_cases hj : m j = true
  · simp [maskedSoftmaxRow, hj]
  · have hj' : m j = false := by simpa using hj
    simp only [maskedSoftmaxRow, hj', Bool.false_eq_true, if_false]
    rw [h j hj']
    congr 1
    apply Finset.sum_congr rfl
    intro k hk
    rw [h k (Finset.mem_filter.mp hk).2]

/-- Helper: the strict-upper-triangular float mask, read as a boolean, is
false exactly at-or-below the diagonal. -/
theorem tensorBool_triuOnes_eq_false {ctx : ℕ} (a b : Fin ctx) :
    tensorBool (triuOnes ctx a b) = false ↔ (b : ℕ) ≤ (a : ℕ) := by
  unfold tensorBool triuOnes
  by_cases h : (a : ℕ) < (b : ℕ) <;> simp [h] <;> omega

/-- Helper: `nn.Linear` is applied row by row, so equal input rows give equal
output rows. -/
theorem linearRow_congr {n din dout : ℕ} (W : Fin dout → Fin din → ℝ)
    (b : Fin dout → ℝ) {x y : Fin n → Fin din → ℝ} (t : Fin n) (h : x t = y t) :
    linearRow W b x t = linearRow W b y t := by
  funext o
  unfold linearRow
  rw [h]

/-- Helper: a causally-masked softmax attention row at position `i`, computed
from two inputs whose scores and values agree on positions `0..i`, is the
same: masked positions get weight zero, and the unmasked scores and values
agree. -/
theorem causal_row_eq {n : ℕ} (i : Fin n) (m : Fin n → Bool)
    (hm : ∀ j : Fin n, m j = false ↔ (j : ℕ) ≤ (i : ℕ))
    (sx sy : Fin n → ℝ) (hs : ∀ j : Fin n, (j : ℕ) ≤ (i : ℕ) → sx j = sy j)
    (vx vy : Fin n → ℝ) (hv : ∀ j : Fin n, (j : ℕ) ≤ (i : ℕ) → vx j = vy j) :
    ∑ j, maskedSoftmaxRow m sx j * vx j = ∑ j, maskedSoftmaxRow m sy j * vy j := by
  have hw : maskedSoftmaxRow m sx = maskedSoftmaxRow m sy :=
    maskedSoftmaxRow_congr (fun j hj => hs j ((hm j).mp hj))
  apply Finset.sum_congr rfl
  intro j _
  by_cases hj : m j = true
  · rw [maskedSoftmaxRow_eq_zero hj, maskedSoftmaxRow_eq_zero hj, zero_mul, zero_mul]
  · have hj' : m j = false := by simpa using hj
    rw [hw, hv j ((hm j).mp hj')]

/-- Helper: noninterference for `CausalAttentionWithoutBuffers` with the
constructed causal mask and dropout 0. -/
theorem caNoBuf_causal {ctx din dout n : ℕ}
    (s : CausalAttentionWithoutBuffers ctx din dout) (hmask : s.mask = triuOnes ctx)
    (hn : n ≤ ctx) (i : Fin n) (x y : Fin n → Fin din → ℝ)
    (hagree : ∀ j : Fin n, (j : ℕ) ≤ (i : ℕ) → x j = y j) :
    s.forward id hn x i = s.forward id hn y i := by
  funext o
  simp only [CausalAttentionWithoutBuffers.forward, id_eq, hmask]
  refine causal_row_eq i _ (fun j => ?_) _ _ (fun j hj => ?_) _ _ (fun j hj => ?_)
  · rw [tensorBool_triuOnes_eq_false]
    simp
  · have hxi : x i = y i := hagree i (le_refl _)
    have hxj : x j = y j := hagree j hj
    rw [linearRow_congr _ _ i hxi, linearRow_congr _ _ j hxj]
  · rw [linearRow_congr _ _ j (hagree j hj)]

/-- Helper: noninterference for `CausalAttentionWithBuffer`, whose forward
pass is the same computation as `CausalAttentionWithoutBuffers`. -/
theorem caBuf_causal {ctx din dout n : ℕ}
    (s : CausalAttentionWithBuffer ctx din dout) (hmask : s.mask = triuOnes ctx)
    (hn : n ≤ ctx) (i : Fin n) (x y : Fin n → Fin din → ℝ)
    (hagree : ∀ j : Fin n, (j : ℕ) ≤ (i : ℕ) → x j = y j) :
    s.forward id hn x i = s.forward id hn y i := by
  obtain ⟨Wq, bq, Wk, bk, Wv, bv, p, mask⟩ := s
  exact caNoBuf_causal ⟨Wq, bq, Wk, bk, Wv, bv, p, mask⟩ hmask hn i x y hagree

/-- Helper: noninterference for `MultiHeadAttentionCombinedQKV` with the
constructed causal mask and dropout 0, per head and hence per output
feature. -/
theorem combinedQKV_causal {ctx din H D n : ℕ}
    (s : MultiHeadAttentionCombinedQKV ctx din H D) (hmask : s.mask = triuOnes ctx)
    (hn : n ≤ ctx) (i : Fin n) (x y : Fin n → Fin din → ℝ)
    (hagree : ∀ j : Fin n, (j : ℕ) ≤ (i : ℕ) → x j = y j) :
    s.forward id hn x i = s.forward id hn y i := by
  funext o
  simp only [MultiHeadAttentionCombinedQKV.forward, id_eq, hmask]
  rw [add_left_inj]
  refine Finset.sum_congr rfl fun c _ => ?_
  refine congrArg (fun z => s.projW o c * z) ?_
  refine causal_row_eq i _ (fun j => ?_) _ _ (fun j hj => ?_) _ _ (fun j hj => ?_)
  · rw [tensorBool_triuOnes_eq_false]
    simp
  · have hxi : x i = y i := hagree i (le_refl _)
    have hxj : x j = y j := hagree j hj
    rw [linearRow_congr _ _ i hxi, linearRow_congr _ _ j hxj]
  · rw [linearRow_congr _ _ j (hagree j hj)]

/-- C4 (amended): causality holds for the modules that multiply the
post-softmax weights with the values — `CausalAttentionWithoutBuffers`,
`CausalAttentionWithBuffer` and `MultiHeadAttentionCombinedQKV` with their
constructed causal masks, dropout 0 and fixed weights: two inputs agreeing
on positions `0..i` produce identical output rows at position `i`.  As
stated the claim also covered `MHA`, which it fails (see the
counterexample): `MHA` multiplies the raw `-∞`-masked scores with the
values, so future values reach position `i` through the `-∞` entries. -/
theorem causal_attention_noninterference :
    (∀ (ctx din dout n : ℕ) (s : CausalAttentionWithoutBuffers ctx din dout),
        s.mask = triuOnes ctx → ∀ (hn : n ≤ ctx) (i : Fin n)
        (x y : Fin n → Fin din → ℝ),
        (∀ j : Fin n, (j : ℕ) ≤ (i : ℕ) → x j = y j) →
        s.forward id hn x i = s.forward id hn y i) ∧
    (∀ (ctx din dout n : ℕ) (s : CausalAttentionWithBuffer ctx din dout),
        s.mask = triuOnes ctx → ∀ (hn : n ≤ ctx) (i : Fin n)
        (x y : Fin n → Fin din → ℝ),
        (∀ j : Fin n, (j : ℕ) ≤ (i : ℕ) → x j = y j) →
        s.forward id hn x i = s.forward id hn y i) ∧
    (∀ (ctx din H D n : ℕ) (s : MultiHeadAttentionCombinedQKV ctx din H D),
        s.mask = triuOnes ctx → ∀ (hn : n ≤ ctx) (i : Fin n)
        (x y : Fin n → Fin din → ℝ),
        (∀ j : Fin n, (j : ℕ) ≤ (i : ℕ) → x j = y j) →
        s.forward id hn x i = s.forward id hn y i) :=
  ⟨fun _ _ _ _ s hm hn i x y ha => caNoBuf_causal s hm hn i x y ha,
   fun _ _ _ _ s hm hn i x y ha => caBuf_causal s hm hn i x y ha,
   fun _ _ _ _ _ s hm hn i x y ha => combinedQKV_causal s hm hn i x y ha⟩

/-- Witness for C4: `xUp` and `xDown` agree at position 0, so the output rows
at position 0 agree. -/
theorem causal_attention_noninterference_witness :
    CausalAttentionWithoutBuffers.forward caNoBufOnes id (le_refl 2) xUp 0
      = CausalAttentionWithoutBuffers.forward caNoBufOnes id (le_refl 2) xDown 0 :=
  causal_attention_noninterference.1 2 1 1 2 caNoBufOnes rfl (le_refl 2) 0 xUp xDown
    (fun j hj => by
      have hj0 : j = 0 := Fin.ext (by simpa using hj)
      subst hj0
      funext d
      simp [xUp, xDown])

/-- Helper: `MHA.forward` on the all-ones fixture evaluates, at position 0 and
output feature 0, to the raw masked-score contraction
`(x₀·x₀)·x₀ + (-∞)·x₁`: the `-∞` written by `masked_fill_` multiplies the
value at the future position 1. -/
theorem mhaOnes_forward_entry (x : Fin 2 → Fin 1 → ℝ) :
    MHA.forward mhaOnes id (le_refl 2) x 0 ⟨0, by decide⟩
      = ((x 0 0 * x 0 0 : ℝ) : EReal) * ((x 0 0 : ℝ) : EReal)
        + (⊥ : EReal) * ((x 1 0 : ℝ) : EReal) := by
  have huniv : (Finset.univ : Finset (Fin (1 * 1))) = {⟨0, by decide⟩} := by decide
  simp [MHA.forward, mhaOnes, MHA.init, linearRow, triuOnes, tensorBool,
    huniv, Fin.sum_univ_two, Fin.sum_univ_one]

/-- Helper: with a positive value at position 1, the raw-score contraction is
`-∞` (matching IEEE: `(-inf) * v = -inf` for `v > 0`). -/
theorem mhaOnes_forward_bot (x : Fin 2 → Fin 1 → ℝ) (hx : 0 < x 1 0) :
    MHA.forward mhaOnes id (le_refl 2) x 0 ⟨0, by decide⟩ = ⊥ := by
  rw [mhaOnes_forward_entry, EReal.bot_mul_coe_of_pos hx, EReal.add_bot]

/-- Helper: with a negative value at position 1, the raw-score contraction is
`+∞` (matching IEEE: `(-inf) * v = +inf` for `v < 0`). -/
theorem mhaOnes_forward_top (x : Fin 2 → Fin 1 → ℝ) (hx : x 1 0 < 0) :
    MHA.forward mhaOnes id (le_refl 2) x 0 ⟨0, by decide⟩ = ⊤ := by
  rw [mhaOnes_forward_entry, EReal.bot_mul_coe_of_neg hx, ← EReal.coe_mul,
    EReal.coe_add_top]

/-- C1 (code divergence): on the all-ones fixture (`d_in=1`, `d_out=1`,
`num_heads=1`, dropout 0) and the two-token input `xUp = (0, 1)`,
`MHA.forward`'s output entry at position 0 is `-∞`, not the finite
softmax-weighted context the claim describes: the line
`context_vec = (attn_scores @ values).transpose(1, 2)` multiplies the raw
`-∞`-masked scores with the values while the computed `attn_weights` go
unused. -/
theorem mha_forward_multiplies_raw_scores :
    MHA.forward mhaOnes id (le_refl 2) xUp 0 ⟨0, by decide⟩ = ⊥ :=
  mhaOnes_forward_bot xUp (by norm_num [xUp])

/-- C2 (code divergence): with the weight correspondence the claim requires —
the single `CasualAttention` head of `wrapOnes` carries the (only) head slice
of `mhaOnes`'s all-ones `W_query`/`W_key`/`W_value`, and both output
projections are weight 1, bias 0 — and dropout 0, the two forwards differ on
the all-ones input: the wrapper multiplies the post-softmax weights with the
values and returns a real number, while `MHA` multiplies the raw
`-∞`-masked scores with the values and returns `-∞`. -/
theorem mha_wrapper_forward_ne_mha_forward :
    ((MHA_Wrapper.forward wrapOnes id (le_refl 2) xOnes 0 ⟨0, by decide⟩ : ℝ) : EReal)
      ≠ MHA.forward mhaOnes id (le_refl 2) xOnes 0 ⟨0, by decide⟩ := by
  rw [mhaOnes_forward_bot xOnes (by norm_num [xOnes])]
  exact EReal.coe_ne_bot _

/-- C4 counterexample: `xUp = (0, 1)` and `xDown = (0, -1)` agree at position
0, yet `MHA.forward`'s outputs at position 0 differ (`-∞` vs `+∞`): the token
at the future position 1 influences the output at position 0, so the claim
fails for `MHA` as stated. -/
theorem mha_output_depends_on_future_token :
    xUp 0 = xDown 0 ∧
    MHA.forward mhaOnes id (le_refl 2) xUp 0 ⟨0, by decide⟩
      ≠ MHA.forward mhaOnes id (le_refl 2) xDown 0 ⟨0, by decide⟩ := by
  constructor
  · funext d
    simp [xUp, xDown]
  · rw [mhaOnes_forward_bot xUp (by norm_num [xUp]),
      mhaOnes_forward_top xDown (by norm_num [xDown])]
    exact bot_ne_top

/-- C3 (code divergence): at `head_dim = 4`, the scaling step of
`MultiHeadAttentionCombinedQKV.forward`, `attn_scores / keys.shape[-1]**-0.5`,
turns a score of `1` into `2` (it multiplies by `√head_dim`), while the
claim's standard scaling `attn_scores * head_dim**(-1/2)` gives `1/2`. -/
theorem combinedQKVScale_divides_by_inverse_sqrt :
    combinedQKVScale 4 1 = 2 ∧ (1 : ℝ) * (4 : ℝ) ^ (-((1 : ℝ) / 2)) = 1 / 2
      ∧ (2 : ℝ) ≠ 1 / 2 := by
  have hhalf : ((4 : ℝ) ^ ((1 : ℝ) / 2)) = 2 := by
    rw [show (4 : ℝ) = 2 ^ (2 : ℕ) by norm_num, ← Real.rpow_natCast 2 2,
      ← Real.rpow_mul (by norm_num)]
    norm_num
  have h4 : (4 : ℝ) ^ (-((1 : ℝ) / 2)) = 1 / 2 := by
    rw [Real.rpow_neg (by norm_num), hhalf]
    norm_num
  refine ⟨?_, by rw [one_mul, h4], by norm_num⟩
  unfold combinedQKVScale
  rw [show ((4 : ℕ) : ℝ) = (4 : ℝ) by norm_num, h4]
  norm_num

end PaperPy
